import Mathlib

/-!
Shallow embedding of the EduPal repository (src/app.py and src/EduPal.py).

Strings are modelled as `List Char`.  Python's `\s` class, `str.lower`,
`str.islower` and `str.upper` are modelled on the ASCII range, which covers
every character the program's own literals and the properties below use.
Scanning loops that restart past a removed match are written with an explicit
fuel argument (the input length bounds the number of scan steps) so that all
definitions compute by kernel reduction.
-/

set_option maxHeartbeats 1000000

/-- ASCII model of Python whitespace (the `\s` class and `str.strip`). -/
def isSpacePy (c : Char) : Bool :=
  c = ' ' || c = '\t' || c = '\n' || c = '\r' || c = '\x0b' || c = '\x0c'

/-- ASCII model of lowercasing one character (Python `str.lower`). -/
def toLowerA (c : Char) : Char :=
  if 65 ≤ c.toNat ∧ c.toNat ≤ 90 then Char.ofNat (c.toNat + 32) else c

/-- Case-insensitive character comparison (the `re.IGNORECASE` flag). -/
def ciEq (a b : Char) : Bool := toLowerA a == toLowerA b

/-- `isPrefCI pat l` holds when `pat` matches at the head of `l`
case-insensitively. -/
def isPrefCI : List Char → List Char → Bool
  | [], _ => true
  | _ :: _, [] => false
  | p :: ps, c :: cs => ciEq p c && isPrefCI ps cs

/-- Case-sensitive prefix test (Python `str.startswith`). -/
def startsWithPlain : List Char → List Char → Bool
  | [], _ => true
  | _ :: _, [] => false
  | p :: ps, c :: cs => p == c && startsWithPlain ps cs

/-- Scan for the first case-insensitive occurrence of `pat`; return the
suffix that follows it (the minimal-match search of `.*?pat`). -/
def findCI (pat : List Char) : List Char → Option (List Char)
  | [] => if pat.isEmpty then some [] else none
  | c :: rest =>
    if isPrefCI pat (c :: rest) then some (List.drop pat.length (c :: rest))
    else findCI pat rest

/-- `re.sub(openT ++ ".*?" ++ closeT, '', -, DOTALL|IGNORECASE)`: delete every
non-greedy open/close block, scanning left to right.  The fuel decreases once
per scan step; `removeBlock` supplies the input length, which suffices because
every step consumes at least one character. -/
def removeBlockF (openT closeT : List Char) : Nat → List Char → List Char
  | _, [] => []
  | 0, l => l
  | fuel + 1, c :: rest =>
    if isPrefCI openT (c :: rest) then
      match findCI closeT (List.drop openT.length (c :: rest)) with
      | some r => removeBlockF openT closeT fuel r
      | none => c :: removeBlockF openT closeT fuel rest
    else c :: removeBlockF openT closeT fuel rest

def removeBlock (openT closeT l : List Char) : List Char :=
  removeBlockF openT closeT l.length l

/-- A character allowed inside a bare tag: `[a-z_]` under `IGNORECASE`. -/
def isTagLetter (c : Char) : Bool :=
  (97 ≤ c.toNat && c.toNat ≤ 122) || (65 ≤ c.toNat && c.toNat ≤ 90) || c = '_'

/-- After at least one tag letter: keep consuming letters until `>`. -/
def tagRest : List Char → Option (List Char)
  | [] => none
  | c :: rest =>
    if c = '>' then some rest
    else if isTagLetter c then tagRest rest
    else none

/-- Match `[a-z_]+>` at the head, returning the suffix after the `>`. -/
def tagLetters : List Char → Option (List Char)
  | [] => none
  | c :: rest => if isTagLetter c then tagRest rest else none

/-- Match `/?[a-z_]+>` (the part of `</?[a-z_]+>` after the `<`). -/
def tagMatch : List Char → Option (List Char)
  | '/' :: t => tagLetters t
  | l => tagLetters l

/-- `re.sub(r'</?[a-z_]+>', '', -, DOTALL|IGNORECASE)`: delete every bare tag,
scanning left to right (fuel as in `removeBlockF`). -/
def removeTagsF : Nat → List Char → List Char
  | _, [] => []
  | 0, l => l
  | fuel + 1, c :: rest =>
    if c = '<' then
      match tagMatch rest with
      | some r => removeTagsF fuel r
      | none => c :: removeTagsF fuel rest
    else c :: removeTagsF fuel rest

def removeTags (l : List Char) : List Char := removeTagsF l.length l

/-- The right single quotation mark (U+2019) spelled in the source's third
filler phrase. -/
def rsq : Char := Char.ofNat 8217

def phHereIs : List Char := "Here is".toList
def phHereAre : List Char := "Here are".toList
def phHereRsqS : List Char := "Here".toList ++ [rsq, 's']
def phBasedOn : List Char := "Based on".toList
def phTheAnswerIs : List Char := "The answer is".toList
def phInSummary : List Char := "In summary".toList

/-- Match one alternative of
`^(Here( is| are|’s)|Based on|The answer is|In summary)` at the start of the
text, in the regex's alternation order; return the remaining suffix. -/
def fillerMatch (l : List Char) : Option (List Char) :=
  if isPrefCI phHereIs l then some (List.drop phHereIs.length l)
  else if isPrefCI phHereAre l then some (List.drop phHereAre.length l)
  else if isPrefCI phHereRsqS l then some (List.drop phHereRsqS.length l)
  else if isPrefCI phBasedOn l then some (List.drop phBasedOn.length l)
  else if isPrefCI phTheAnswerIs l then some (List.drop phTheAnswerIs.length l)
  else if isPrefCI phInSummary l then some (List.drop phInSummary.length l)
  else none

/-- The `[:\s]*` tail of the filler pattern. -/
def isColonOrWs (c : Char) : Bool := c = ':' || isSpacePy c

/-- Anchored removal of one leading filler phrase plus trailing `[:\s]*`. -/
def removeFiller (l : List Char) : List Char :=
  match fillerMatch l with
  | some r => r.dropWhile isColonOrWs
  | none => l

/-- `re.sub(r'\s+', ' ', -)` as a one-pass scan; the Bool records whether the
scan is inside a whitespace run whose single `' '` was already emitted. -/
def collapseGo : Bool → List Char → List Char
  | _, [] => []
  | inRun, c :: rest =>
    if isSpacePy c then
      if inRun then collapseGo true rest else ' ' :: collapseGo true rest
    else c :: collapseGo false rest

def collapseWs (l : List Char) : List Char := collapseGo false l

/-- Python `str.strip()`. -/
def stripPy (l : List Char) : List Char :=
  ((l.dropWhile isSpacePy).reverse.dropWhile isSpacePy).reverse

/-- ASCII model of Python `str.islower` on one character. -/
def isLowerA (c : Char) : Bool := 97 ≤ c.toNat && c.toNat ≤ 122

/-- ASCII model of Python `str.upper` on one character. -/
def toUpperA (c : Char) : Char :=
  if isLowerA c then Char.ofNat (c.toNat - 32) else c

/-- `if cleaned_text and cleaned_text[0].islower():` capitalize the head. -/
def capFirst : List Char → List Char
  | [] => []
  | c :: rest => if isLowerA c then toUpperA c :: rest else c :: rest

def tagThinkOpen : List Char := "<thinking>".toList
def tagThinkClose : List Char := "</thinking>".toList
def tagReasonOpen : List Char := "<reasoning>".toList
def tagReasonClose : List Char := "</reasoning>".toList

/-- `ResponseCleaner.clean_response` from src/app.py: the four ordered
rewrites, whitespace collapse plus strip, then first-letter capitalization. -/
def clean_response (text : List Char) : List Char :=
  if text.isEmpty then text
  else
    let t1 := removeBlock tagThinkOpen tagThinkClose text
    let t2 := removeBlock tagReasonOpen tagReasonClose t1
    let t3 := removeTags t2
    let t4 := removeFiller t3
    let t5 := stripPy (collapseWs t4)
    capFirst t5

example : clean_response "".toList = "".toList := by decide

example :
    clean_response "<thinking>ignore</thinking>here is a summary: plants use light.".toList
      = "A summary: plants use light.".toList := by decide

/-! ## `UIManager._parse_quiz_questions` from src/app.py -/

/-- Python `str.split('\n')`. -/
def splitNl : List Char → List (List Char)
  | [] => [[]]
  | c :: rest =>
    if c = '\n' then [] :: splitNl rest
    else
      match splitNl rest with
      | [] => [[c]]
      | h :: t => (c :: h) :: t

/-- The synthetic key `f"Q{question_number}"`. -/
def qKey (n : Nat) : List Char := 'Q' :: (Nat.repr n).toList

/-- `line.startswith(f'{question_number}.') or line.startswith(f'{question_number} ')`. -/
def startsQuestion (n : Nat) (l : List Char) : Bool :=
  startsWithPlain ((Nat.repr n).toList ++ ['.']) l
    || startsWithPlain ((Nat.repr n).toList ++ [' ']) l

/-- The line loop of `_parse_quiz_questions`: state is (remaining lines,
current_question, question_number, questions-so-far in insertion order). -/
def parse_quiz_loop :
    List (List Char) → List Char → Nat → List (List Char × List Char) →
      List (List Char × List Char)
  | [], current, n, acc =>
    if current.isEmpty then acc else acc ++ [(qKey n, stripPy current)]
  | line :: rest, current, n, acc =>
    let l := stripPy line
    if !l.isEmpty && startsQuestion n l then
      if !current.isEmpty then
        parse_quiz_loop rest l (n + 1) (acc ++ [(qKey n, stripPy current)])
      else
        parse_quiz_loop rest l n acc
    else if !current.isEmpty && !l.isEmpty then
      parse_quiz_loop rest (current ++ ' ' :: l) n acc
    else
      parse_quiz_loop rest current n acc

/-- `UIManager._parse_quiz_questions` (its `try` body never raises: every
operation it performs is total). -/
def parse_quiz_questions (quizText : List Char) : List (List Char × List Char) :=
  parse_quiz_loop (splitNl quizText) [] 1 []

example :
    parse_quiz_questions "1. Q one\nA) x\n2. Q two\nA) y\n3. Q three\nA) z".toList
      = [("Q1".toList, "1. Q one A) x 2. Q two A) y 3. Q three A) z".toList)] := by decide

example : parse_quiz_questions "hello\nworld".toList = [] := by decide

/-! ## The Lambda service from src/EduPal.py -/

/-- One role-tagged prompt message. -/
structure Message where
  role : List Char
  content : List Char
deriving DecidableEq

/-- The model collaborator behind `bedrock.invoke_model` plus response-body
extraction: it receives the messages and `max_tokens` and either returns the
generated text or fails (transport error or malformed completion). -/
def Stub : Type := List Message → Nat → Except (List Char) (List Char)

/-- The PDF-extraction collaborator (`PDFProcessor.extract_text_from_pdf`):
returns extracted text or fails with the wrapped error message. -/
def Extractor : Type := List Char → Except (List Char) (List Char)

/-- The apostrophe character, U+0027. -/
def apos : Char := Char.ofNat 39

def qa_prompt (context question : List Char) : List Char :=
  "Answer this question based on the text below.\nText: ".toList ++ context
    ++ "\nQuestion: ".toList ++ question
    ++ "\nProvide a concise and accurate answer.".toList

def summary_prompt (text : List Char) : List Char :=
  "Create a well-structured bullet point summary of this text:\n".toList ++ text
    ++ "\nFocus on key concepts and main ideas.".toList

def quiz_prompt (text : List Char) : List Char :=
  "Create 3 multiple-choice questions about this text:\n        ".toList ++ text
    ++ "\n        Format each question EXACTLY like this:\n        Q1. [Question text]\n        A) [Option A]\n        B) [Option B]\n        C) [Option C]\n        D) [Option D]\n\n        Q2. [Question text]\n        A) [Option A]\n        B) [Option B]\n        C) [Option C]\n        D) [Option D]\n\n        Q3. [Question text]\n        A) [Option A]\n        B) [Option B]\n        C) [Option C]\n        D) [Option D]\n\n        Ensure each question starts with Q1., Q2., Q3. and options use A), B), C), D) format.".toList

def feedback_prompt (question user_answer correct_answer : List Char) : List Char :=
  "Please provide feedback on this quiz answer:\n\n    Question: ".toList ++ question
    ++ "\n\n    User".toList ++ [apos] ++ "s Answer: ".toList ++ user_answer
    ++ "\n    Expected Correct Answer: ".toList ++ correct_answer
    ++ "\n\n    Provide constructive feedback that:\n    1. First states whether the user".toList
    ++ [apos]
    ++ "s answer matches the expected answer\n    2. Explains why the expected answer is correct\n    3. Provides educational insights about the topic\n    4. Is encouraging and helpful for learning\n    Keep the feedback concise but informative.".toList

/-- `AIResponseHandler._invoke_model`, instrumented with the number of model
invocations (always 1 once reached). -/
def invoke_model (stub : Stub) (messages : List Message) (maxTokens : Nat) :
    Except (List Char) (List Char) × Nat :=
  match stub messages maxTokens with
  | Except.ok r => (Except.ok r, 1)
  | Except.error e => (Except.error ("AI model invocation failed: ".toList ++ e), 1)

def userMsg (content : List Char) : Message := { role := "user".toList, content := content }

def handle_question_answer (stub : Stub) (context question : List Char) :
    Except (List Char) (List Char) × Nat :=
  invoke_model stub [userMsg (qa_prompt context question)] 300

def generate_summary (stub : Stub) (text : List Char) :
    Except (List Char) (List Char) × Nat :=
  invoke_model stub [userMsg (summary_prompt text)] 400

def generate_quiz (stub : Stub) (text : List Char) :
    Except (List Char) (List Char) × Nat :=
  invoke_model stub [userMsg (quiz_prompt text)] 600

def handle_feedback (stub : Stub) (question user_answer correct_answer : List Char) :
    Except (List Char) (List Char) × Nat :=
  invoke_model stub [userMsg (feedback_prompt question user_answer correct_answer)] 300

/-- The JSON body fields read by the service; absent fields default to `''`
exactly as `body.get(-, '')` does. -/
structure Request where
  action : List Char := []
  text : List Char := []
  input : List Char := []
  question : List Char := []
  user_answer : List Char := []
  correct_answer : List Char := []
  pdf_data : List Char := []
deriving DecidableEq

/-- The serialized response: `statusCode` plus the JSON body's fields.
`action`/`response` appear only in success bodies and `error` only in error
bodies, so each is an `Option`; the constant headers and timestamp are not
modelled. -/
structure Envelope where
  statusCode : Nat
  success : Bool
  action : Option (List Char)
  response : Option (List Char)
  error : Option (List Char)
deriving DecidableEq

/-- `ResponseBuilder.build_success_response`. -/
def build_success_response (data action : List Char) : Envelope :=
  { statusCode := 200, success := true, action := some action,
    response := some data, error := none }

/-- `ResponseBuilder.build_error_response` (default status 400). -/
def build_error_response (message : List Char) (statusCode : Nat := 400) : Envelope :=
  { statusCode := statusCode, success := false, action := none,
    response := none, error := some message }

/-- `str(e)` of the `AttributeError` raised by the call
`self.ai_handler.provide_feedback(...)` at src/EduPal.py:268: the class only
defines `handle_feedback`. -/
def attrErrorMsg : List Char :=
  [apos] ++ "AIResponseHandler".toList ++ [apos]
    ++ " object has no attribute ".toList ++ [apos] ++ "provide_feedback".toList ++ [apos]

/-- `str(e)` of the `UnboundLocalError` the fall-through return would raise;
unreachable from `process_request`, which guards the action set. -/
def unboundResultMsg : List Char :=
  "local variable ".toList ++ [apos] ++ "result".toList ++ [apos]
    ++ " referenced before assignment".toList

def missingFieldsMsg : List Char :=
  "Missing required fields for feedback: question, user_answer, correct_answer".toList

/-- `EduPalAIService._handle_ai_actions`, instrumented with the model call
count.  `Except.error` models an uncaught Python exception. -/
def handle_ai_actions (stub : Stub) (action : List Char) (body : Request) :
    Except (List Char) Envelope × Nat :=
  let text := body.text.take 5000
  if (stripPy text).isEmpty then
    (Except.ok (build_error_response "No text content provided".toList), 0)
  else if action = "qa".toList then
    if body.input.isEmpty then
      (Except.ok (build_error_response "No question provided".toList), 0)
    else
      match handle_question_answer stub text body.input with
      | (Except.ok r, n) => (Except.ok (build_success_response r action), n)
      | (Except.error e, n) => (Except.error e, n)
  else if action = "summarize".toList then
    match generate_summary stub text with
    | (Except.ok r, n) => (Except.ok (build_success_response r action), n)
    | (Except.error e, n) => (Except.error e, n)
  else if action = "quiz".toList then
    match generate_quiz stub text with
    | (Except.ok r, n) => (Except.ok (build_success_response r action), n)
    | (Except.error e, n) => (Except.error e, n)
  else if action = "feedback".toList then
    if body.question.isEmpty || body.user_answer.isEmpty || body.correct_answer.isEmpty then
      (Except.ok (build_error_response missingFieldsMsg), 0)
    else
      (Except.error attrErrorMsg, 0)
  else
    (Except.error unboundResultMsg, 0)

/-- `EduPalAIService._handle_pdf_processing`. -/
def handle_pdf_processing (ext : Extractor) (body : Request) :
    Except (List Char) Envelope :=
  if body.pdf_data.isEmpty then
    Except.ok (build_error_response "No PDF data provided".toList)
  else
    match ext body.pdf_data with
    | Except.ok t => Except.ok (build_success_response t "process_pdf".toList)
    | Except.error e => Except.error e

/-- Python `str.lower` (ASCII model). -/
def lowerStr (l : List Char) : List Char := l.map toLowerA

def invalid_action_msg (action : List Char) : List Char :=
  "Invalid action: ".toList ++ action
    ++ ". Supported actions: process_pdf, qa, summarize, quiz, feedback".toList

/-- `EduPalAIService.process_request`: routing plus the catch-all that turns
any escaped exception into a 500 envelope.  The transport-level JSON parsing
of `_parse_request_body` is outside the embedding: `body` is the parsed
request.  The second component counts model invocations. -/
def process_request (stub : Stub) (ext : Extractor) (body : Request) :
    Envelope × Nat :=
  let action := lowerStr body.action
  if action = "process_pdf".toList then
    match handle_pdf_processing ext body with
    | Except.ok env => (env, 0)
    | Except.error e =>
      (build_error_response ("Internal server error: ".toList ++ e) 500, 0)
  else if action = "qa".toList ∨ action = "summarize".toList
      ∨ action = "quiz".toList ∨ action = "feedback".toList then
    match handle_ai_actions stub action body with
    | (Except.ok env, n) => (env, n)
    | (Except.error e, n) =>
      (build_error_response ("Internal server error: ".toList ++ e) 500, n)
  else
    (build_error_response (invalid_action_msg action), 0)

/-! ## Basic character lemmas -/

theorem toNat_ofNat_valid {n : Nat} (h : n < 55296) : (Char.ofNat n).toNat = n := by
  rw [Char.ofNat, dif_pos (Or.inl h)]
  rfl

theorem char_eq_of_toNat {a b : Char} (h : a.toNat = b.toNat) : a = b := by
  have h2 := congrArg Char.ofNat h
  rwa [Char.ofNat_toNat, Char.ofNat_toNat] at h2

theorem toNat_toLowerA (c : Char) :
    (toLowerA c).toNat = if 65 ≤ c.toNat ∧ c.toNat ≤ 90 then c.toNat + 32 else c.toNat := by
  unfold toLowerA
  by_cases h : 65 ≤ c.toNat ∧ c.toNat ≤ 90
  · rw [if_pos h, if_pos h, toNat_ofNat_valid (by omega)]
  · rw [if_neg h, if_neg h]

theorem toLowerA_idem (c : Char) : toLowerA (toLowerA c) = toLowerA c := by
  have h1 := toNat_toLowerA c
  have h2 := toNat_toLowerA (toLowerA c)
  by_cases h : 65 ≤ c.toNat ∧ c.toNat ≤ 90
  · rw [if_pos h] at h1
    rw [if_neg (by omega)] at h2
    exact char_eq_of_toNat (by omega)
  · rw [if_neg h] at h1
    rw [h1, if_neg h] at h2
    exact char_eq_of_toNat (by omega)

theorem lowerStr_idem (l : List Char) : lowerStr (lowerStr l) = lowerStr l := by
  unfold lowerStr
  rw [List.map_map]
  exact List.map_congr_left (fun c _ => toLowerA_idem c)

theorem ciEq_lt_false {c : Char} (h : ¬ c = '<') : ciEq '<' c = false := by
  unfold ciEq
  apply beq_eq_false_iff_ne.mpr
  intro heq
  apply h
  have h2 := congrArg Char.toNat heq
  have h3 : (toLowerA '<').toNat = 60 := by decide
  rw [h3] at h2
  have h1 := toNat_toLowerA c
  by_cases hr : 65 ≤ c.toNat ∧ c.toNat ≤ 90
  · rw [if_pos hr] at h1
    exfalso
    omega
  · rw [if_neg hr] at h1
    have h60 : ('<').toNat = 60 := by decide
    exact char_eq_of_toNat (by omega)

/-! ## The removal passes fix texts without a left angle bracket -/

theorem removeBlockF_id {openT closeT : List Char} (hop : openT.head? = some '<') :
    ∀ (fuel : Nat) (l : List Char), l.all (fun c => !(c = '<')) = true →
      removeBlockF openT closeT fuel l = l := by
  intro fuel
  induction fuel with
  | zero => intro l _; cases l <;> rfl
  | succ n ih =>
    intro l hl
    cases l with
    | nil => rfl
    | cons c rest =>
      simp only [List.all_cons, Bool.and_eq_true, decide_eq_true_eq, Bool.not_eq_true'] at hl
      have hc : ¬ c = '<' := by simpa using hl.1
      have hpref : isPrefCI openT (c :: rest) = false := by
        cases openT with
        | nil => simp at hop
        | cons o os =>
          obtain rfl : o = '<' := by simpa using hop
          simp [isPrefCI, ciEq_lt_false hc]
      unfold removeBlockF
      rw [hpref]
      simp only [Bool.false_eq_true, if_false]
      rw [ih rest (by simp_all)]

theorem removeBlock_id {openT closeT l : List Char} (hop : openT.head? = some '<')
    (hl : l.all (fun c => !(c = '<')) = true) : removeBlock openT closeT l = l :=
  removeBlockF_id hop l.length l hl

theorem removeTagsF_id :
    ∀ (fuel : Nat) (l : List Char), l.all (fun c => !(c = '<')) = true →
      removeTagsF fuel l = l := by
  intro fuel
  induction fuel with
  | zero => intro l _; cases l <;> rfl
  | succ n ih =>
    intro l hl
    cases l with
    | nil => rfl
    | cons c rest =>
      simp only [List.all_cons, Bool.and_eq_true, decide_eq_true_eq, Bool.not_eq_true'] at hl
      have hc : ¬ c = '<' := by simpa using hl.1
      unfold removeTagsF
      rw [if_neg hc]
      rw [ih rest (by simp_all)]

theorem removeTags_id {l : List Char} (hl : l.all (fun c => !(c = '<')) = true) :
    removeTags l = l :=
  removeTagsF_id l.length l hl

/-! ## Canonical-form predicates for collapsed and stripped text -/

/-- Every whitespace character is a plain space. -/
def wsOkB (l : List Char) : Bool := l.all (fun c => !(isSpacePy c) || c = ' ')

/-- No two adjacent spaces. -/
def noDouble : List Char → Bool
  | [] => true
  | [_] => true
  | a :: b :: w => !(a = ' ' && b = ' ') && noDouble (b :: w)

def headNotWs (l : List Char) : Bool :=
  match l.head? with
  | some c => !(isSpacePy c)
  | none => true

def lastNotWs (l : List Char) : Bool :=
  match l.getLast? with
  | some c => !(isSpacePy c)
  | none => true

theorem isSpacePy_toNat (c : Char) :
    isSpacePy c = (decide (c.toNat = 32) || decide (c.toNat = 9) || decide (c.toNat = 10)
      || decide (c.toNat = 13) || decide (c.toNat = 11) || decide (c.toNat = 12)) := by
  unfold isSpacePy
  have conv1 : ∀ (d : Char), decide (c = d) = decide (c.toNat = d.toNat) := by
    intro d
    apply decide_eq_decide.mpr
    exact ⟨fun e => by rw [e], fun e => char_eq_of_toNat e⟩
  rw [conv1 ' ', conv1 '\t', conv1 '\n', conv1 '\r', conv1 '\x0b', conv1 '\x0c']
  rfl

theorem noDouble_of_cons {a : Char} {w : List Char} (h : noDouble (a :: w) = true) :
    noDouble w = true := by
  cases w with
  | nil => rfl
  | cons b t =>
    unfold noDouble at h
    exact (Bool.and_eq_true _ _ |>.mp h).2

theorem noDouble_cons_left {a : Char} {w : List Char} (ha : ¬ a = ' ')
    (h : noDouble w = true) : noDouble (a :: w) = true := by
  cases w with
  | nil => rfl
  | cons b t =>
    unfold noDouble
    simp [ha, h]

theorem noDouble_cons_of_head {a : Char} {w : List Char} (hw : w.head? ≠ some ' ')
    (h : noDouble w = true) : noDouble (a :: w) = true := by
  cases w with
  | nil => rfl
  | cons b t =>
    have hb : ¬ b = ' ' := by
      intro e
      exact hw (by rw [e]; rfl)
    unfold noDouble
    simp [hb, h]

theorem collapseGo_true_eq_false_of_head {l : List Char} (h : headNotWs l = true) :
    collapseGo true l = collapseGo false l := by
  cases l with
  | nil => rfl
  | cons c r =>
    have hc : isSpacePy c = false := by
      unfold headNotWs at h
      simpa using h
    unfold collapseGo
    rw [hc]
    simp

theorem head_collapseGo_true : ∀ l : List Char, headNotWs (collapseGo true l) = true := by
  intro l
  induction l with
  | nil => rfl
  | cons c r ih =>
    unfold collapseGo
    by_cases hc : isSpacePy c = true
    · rw [hc]
      simpa using ih
    · rw [Bool.not_eq_true] at hc
      rw [hc]
      simp only [Bool.false_eq_true, if_false]
      unfold headNotWs
      simpa using hc

theorem wsOk_collapseGo : ∀ (s : Bool) (l : List Char), wsOkB (collapseGo s l) = true := by
  intro s l
  induction l generalizing s with
  | nil => cases s <;> rfl
  | cons c r ih =>
    unfold collapseGo
    by_cases hc : isSpacePy c = true
    · rw [hc]
      cases s with
      | true => simpa using ih true
      | false =>
        show wsOkB (' ' :: collapseGo true r) = true
        unfold wsOkB
        rw [List.all_cons]
        have h2 := ih true
        unfold wsOkB at h2
        simp [h2]
    · rw [Bool.not_eq_true] at hc
      rw [hc]
      simp only [Bool.false_eq_true, if_false]
      unfold wsOkB
      rw [List.all_cons]
      have := ih false
      unfold wsOkB at this
      simp [this, hc]

theorem head?_ne_space_of_headNotWs {l : List Char} (h : headNotWs l = true) :
    l.head? ≠ some ' ' := by
  cases l with
  | nil => simp
  | cons c r =>
    have hc : isSpacePy c = false := by
      unfold headNotWs at h
      simpa using h
    intro e
    have ec : c = ' ' := by simpa using e
    rw [ec] at hc
    simp [isSpacePy] at hc

theorem noDouble_collapseGo : ∀ (s : Bool) (l : List Char), noDouble (collapseGo s l) = true := by
  intro s l
  induction l generalizing s with
  | nil => cases s <;> rfl
  | cons c r ih =>
    unfold collapseGo
    by_cases hc : isSpacePy c = true
    · rw [hc]
      cases s with
      | true => simpa using ih true
      | false =>
        show noDouble (' ' :: collapseGo true r) = true
        exact noDouble_cons_of_head
          (head?_ne_space_of_headNotWs (head_collapseGo_true r)) (ih true)
    · rw [Bool.not_eq_true] at hc
      rw [hc]
      simp only [Bool.false_eq_true, if_false]
      have hcs : ¬ c = ' ' := by
        intro e
        rw [e] at hc
        simp [isSpacePy] at hc
      exact noDouble_cons_left hcs (ih false)

theorem wsOk_of_cons {a : Char} {w : List Char} (h : wsOkB (a :: w) = true) :
    wsOkB w = true := by
  unfold wsOkB at h ⊢
  rw [List.all_cons] at h
  exact (Bool.and_eq_true _ _ |>.mp h).2

theorem headNotWs_of_wsOk_noDouble_after_space {w : List Char}
    (hws : wsOkB w = true) (hnd : noDouble (' ' :: w) = true) :
    headNotWs w = true := by
  cases w with
  | nil => rfl
  | cons b t =>
    have hb : ¬ b = ' ' := by
      unfold noDouble at hnd
      rw [Bool.and_eq_true] at hnd
      intro e
      rw [e] at hnd
      simp at hnd
    unfold wsOkB at hws
    rw [List.all_cons, Bool.and_eq_true] at hws
    have hb2 := hws.1
    unfold headNotWs
    simp only [List.head?_cons]
    rcases Bool.or_eq_true _ _ |>.mp hb2 with h1 | h1
    · simpa using h1
    · exact absurd (by simpa using h1) hb

theorem collapse_id {l : List Char} (hws : wsOkB l = true) (hnd : noDouble l = true) :
    collapseGo false l = l := by
  induction l with
  | nil => rfl
  | cons c r ih =>
    by_cases hc : isSpacePy c = true
    · have hcs : c = ' ' := by
        unfold wsOkB at hws
        rw [List.all_cons, Bool.and_eq_true] at hws
        rcases Bool.or_eq_true _ _ |>.mp hws.1 with h1 | h1
        · rw [hc] at h1
          simp at h1
        · simpa using h1
      subst hcs
      have hwr : wsOkB r = true := wsOk_of_cons hws
      have hhr : headNotWs r = true := headNotWs_of_wsOk_noDouble_after_space hwr hnd
      unfold collapseGo
      rw [hc]
      simp only [if_true]
      rw [collapseGo_true_eq_false_of_head hhr, ih hwr (noDouble_of_cons hnd)]
      simp
    · rw [Bool.not_eq_true] at hc
      unfold collapseGo
      rw [hc]
      simp only [Bool.false_eq_true, if_false]
      rw [ih (wsOk_of_cons hws) (noDouble_of_cons hnd)]

theorem noDouble_append_right {l₁ l₂ : List Char} (h : noDouble (l₁ ++ l₂) = true) :
    noDouble l₂ = true := by
  induction l₁ with
  | nil => exact h
  | cons a t ih => exact ih (noDouble_of_cons h)

theorem noDouble_append_left {l₁ l₂ : List Char} (h : noDouble (l₁ ++ l₂) = true) :
    noDouble l₁ = true := by
  induction l₁ with
  | nil => rfl
  | cons a t ih =>
    cases t with
    | nil => rfl
    | cons b t2 =>
      have hpair : ¬ (a = ' ' ∧ b = ' ') := by
        intro ⟨e1, e2⟩
        rw [List.cons_append, List.cons_append] at h
        unfold noDouble at h
        rw [Bool.and_eq_true] at h
        rw [e1, e2] at h
        simp at h
      have htail : noDouble (b :: t2) = true := ih (noDouble_of_cons h)
      unfold noDouble
      rw [Bool.and_eq_true]
      constructor
      · simp only [Bool.not_eq_true', Bool.and_eq_false_iff]
        by_cases e1 : a = ' '
        · right
          simp only [decide_eq_false_iff_not]
          exact fun e2 => hpair ⟨e1, e2⟩
        · left
          simp only [decide_eq_false_iff_not]
          exact e1
      · exact htail

theorem wsOk_stripPy {l : List Char} (h : wsOkB l = true) : wsOkB (stripPy l) = true := by
  unfold wsOkB at h ⊢
  rw [List.all_eq_true] at h ⊢
  intro x hx
  apply h
  unfold stripPy at hx
  rw [List.mem_reverse] at hx
  have h1 := (@List.dropWhile_suffix Char ((l.dropWhile isSpacePy).reverse) isSpacePy).subset hx
  rw [List.mem_reverse] at h1
  exact (List.dropWhile_suffix isSpacePy).subset h1

theorem noDouble_stripPy {l : List Char} (h : noDouble l = true) :
    noDouble (stripPy l) = true := by
  have hsuf := @List.dropWhile_suffix Char l isSpacePy
  obtain ⟨pre, hpre⟩ := hsuf
  have h1 : noDouble (l.dropWhile isSpacePy) = true := by
    rw [← hpre] at h
    exact noDouble_append_right h
  have hsuf2 := @List.dropWhile_suffix Char ((l.dropWhile isSpacePy).reverse) isSpacePy
  have hpref : stripPy l <+: l.dropWhile isSpacePy := by
    have h3 := (@List.reverse_prefix Char
      (List.dropWhile isSpacePy (List.dropWhile isSpacePy l).reverse)
      ((List.dropWhile isSpacePy l).reverse)).mpr hsuf2
    rw [List.reverse_reverse] at h3
    unfold stripPy
    exact h3
  obtain ⟨post, hpost⟩ := hpref
  rw [← hpost] at h1
  exact noDouble_append_left h1

theorem headNotWs_dropWhile (l : List Char) :
    headNotWs (l.dropWhile isSpacePy) = true := by
  induction l with
  | nil => rfl
  | cons c r ih =>
    rw [List.dropWhile_cons]
    by_cases hc : isSpacePy c = true
    · rw [if_pos hc]
      exact ih
    · rw [Bool.not_eq_true] at hc
      rw [hc]
      simp only [Bool.false_eq_true, if_false]
      unfold headNotWs
      simpa using hc

theorem headNotWs_of_prefix {l₁ l : List Char} (hp : l₁ <+: l)
    (h : headNotWs l = true) : headNotWs l₁ = true := by
  cases l₁ with
  | nil => rfl
  | cons a t =>
    obtain ⟨post, hpost⟩ := hp
    rw [← hpost] at h
    exact h

theorem headNotWs_stripPy (l : List Char) : headNotWs (stripPy l) = true := by
  have hsuf2 := @List.dropWhile_suffix Char ((l.dropWhile isSpacePy).reverse) isSpacePy
  have hpref : stripPy l <+: l.dropWhile isSpacePy := by
    have h3 := (@List.reverse_prefix Char
      (List.dropWhile isSpacePy (List.dropWhile isSpacePy l).reverse)
      ((List.dropWhile isSpacePy l).reverse)).mpr hsuf2
    rw [List.reverse_reverse] at h3
    unfold stripPy
    exact h3
  exact headNotWs_of_prefix hpref (headNotWs_dropWhile l)

theorem lastNotWs_stripPy (l : List Char) : lastNotWs (stripPy l) = true := by
  unfold stripPy lastNotWs
  rw [List.getLast?_reverse]
  have h := headNotWs_dropWhile (l.dropWhile isSpacePy).reverse
  unfold headNotWs at h
  exact h

theorem dropWhile_eq_self_of_headNotWs {l : List Char} (h : headNotWs l = true) :
    l.dropWhile isSpacePy = l := by
  cases l with
  | nil => rfl
  | cons c r =>
    have hc : isSpacePy c = false := by
      unfold headNotWs at h
      simpa using h
    rw [List.dropWhile_cons, hc]
    simp

theorem strip_id {l : List Char} (h1 : headNotWs l = true) (h2 : lastNotWs l = true) :
    stripPy l = l := by
  unfold stripPy
  rw [dropWhile_eq_self_of_headNotWs h1]
  have h3 : headNotWs l.reverse = true := by
    unfold headNotWs
    rw [List.head?_reverse]
    unfold lastNotWs at h2
    exact h2
  rw [dropWhile_eq_self_of_headNotWs h3, List.reverse_reverse]

/-! ## Capitalization lemmas -/

theorem isLowerA_bounds {c : Char} (h : isLowerA c = true) :
    97 ≤ c.toNat ∧ c.toNat ≤ 122 := by
  unfold isLowerA at h
  simpa using h

theorem toNat_toUpperA {c : Char} (h : isLowerA c = true) :
    (toUpperA c).toNat = c.toNat - 32 := by
  obtain ⟨h1, h2⟩ := isLowerA_bounds h
  unfold toUpperA
  rw [if_pos h]
  exact toNat_ofNat_valid (by omega)

theorem isLowerA_toUpperA {c : Char} (h : isLowerA c = true) :
    isLowerA (toUpperA c) = false := by
  obtain ⟨h1, h2⟩ := isLowerA_bounds h
  have h3 := toNat_toUpperA h
  unfold isLowerA
  simp only [Bool.and_eq_false_iff, decide_eq_false_iff_not]
  omega

theorem notSpace_toUpperA {c : Char} (h : isLowerA c = true) :
    isSpacePy (toUpperA c) = false := by
  obtain ⟨h1, h2⟩ := isLowerA_bounds h
  have h3 := toNat_toUpperA h
  rw [isSpacePy_toNat]
  simp only [Bool.or_eq_false_iff, decide_eq_false_iff_not]
  omega

theorem toUpperA_ne_space {c : Char} (h : isLowerA c = true) : ¬ toUpperA c = ' ' := by
  intro e
  have h2 := notSpace_toUpperA h
  rw [e] at h2
  simp [isSpacePy] at h2

theorem capFirst_cons_lower {c : Char} {r : List Char} (h : isLowerA c = true) :
    capFirst (c :: r) = toUpperA c :: r := by
  simp only [capFirst]
  rw [if_pos h]

theorem capFirst_cons_not_lower {c : Char} {r : List Char} (h : isLowerA c = false) :
    capFirst (c :: r) = c :: r := by
  simp only [capFirst]
  rw [h]
  simp

theorem capFirst_idem (l : List Char) : capFirst (capFirst l) = capFirst l := by
  cases l with
  | nil => rfl
  | cons c r =>
    by_cases h : isLowerA c = true
    · rw [capFirst_cons_lower h, capFirst_cons_not_lower (isLowerA_toUpperA h)]
    · rw [Bool.not_eq_true] at h
      rw [capFirst_cons_not_lower h, capFirst_cons_not_lower h]

theorem wsOk_capFirst {l : List Char} (h : wsOkB l = true) : wsOkB (capFirst l) = true := by
  cases l with
  | nil => rfl
  | cons c r =>
    by_cases hc : isLowerA c = true
    · have e1 : capFirst (c :: r) = toUpperA c :: r := capFirst_cons_lower hc
      rw [e1]
      unfold wsOkB
      rw [List.all_cons, notSpace_toUpperA hc]
      have h2 := wsOk_of_cons h
      unfold wsOkB at h2
      simp [h2]
    · rw [Bool.not_eq_true] at hc
      have e1 : capFirst (c :: r) = c :: r := capFirst_cons_not_lower hc
      rw [e1]
      exact h

theorem noDouble_capFirst {l : List Char} (h : noDouble l = true) :
    noDouble (capFirst l) = true := by
  cases l with
  | nil => rfl
  | cons c r =>
    by_cases hc : isLowerA c = true
    · have e1 : capFirst (c :: r) = toUpperA c :: r := capFirst_cons_lower hc
      rw [e1]
      exact noDouble_cons_left (toUpperA_ne_space hc) (noDouble_of_cons h)
    · rw [Bool.not_eq_true] at hc
      have e1 : capFirst (c :: r) = c :: r := capFirst_cons_not_lower hc
      rw [e1]
      exact h

theorem headNotWs_capFirst {l : List Char} (h : headNotWs l = true) :
    headNotWs (capFirst l) = true := by
  cases l with
  | nil => rfl
  | cons c r =>
    by_cases hc : isLowerA c = true
    · have e1 : capFirst (c :: r) = toUpperA c :: r := capFirst_cons_lower hc
      rw [e1]
      unfold headNotWs
      simp only [List.head?_cons]
      rw [notSpace_toUpperA hc]
      rfl
    · rw [Bool.not_eq_true] at hc
      have e1 : capFirst (c :: r) = c :: r := capFirst_cons_not_lower hc
      rw [e1]
      exact h

theorem lastNotWs_capFirst {l : List Char} (h : lastNotWs l = true) :
    lastNotWs (capFirst l) = true := by
  cases l with
  | nil => rfl
  | cons c r =>
    by_cases hc : isLowerA c = true
    · have e1 : capFirst (c :: r) = toUpperA c :: r := capFirst_cons_lower hc
      rw [e1]
      cases r with
      | nil =>
        unfold lastNotWs
        simp only [List.getLast?_singleton]
        rw [notSpace_toUpperA hc]
        rfl
      | cons d r2 =>
        unfold lastNotWs at h ⊢
        rw [List.getLast?_cons_cons] at h ⊢
        exact h
    · rw [Bool.not_eq_true] at hc
      have e1 : capFirst (c :: r) = c :: r := capFirst_cons_not_lower hc
      rw [e1]
      exact h

/-- `clean_response` with its let chain spelled out. -/
theorem clean_response_eq (text : List Char) :
    clean_response text
      = if text.isEmpty then text
        else capFirst (stripPy (collapseWs (removeFiller (removeTags
            (removeBlock tagReasonOpen tagReasonClose
              (removeBlock tagThinkOpen tagThinkClose text)))))) := rfl

theorem removeFiller_id {l : List Char} (h : fillerMatch l = none) :
    removeFiller l = l := by
  unfold removeFiller
  rw [h]

/-- C3 (corrected, counterexample): the cleaner is not idempotent.  On
`"Here is Here is x"` the first pass strips one leading filler phrase and
leaves `"Here is x"`, which itself begins with a filler phrase, so a second
pass strips again and yields `"X"`. -/
theorem c3_clean_not_idempotent :
    clean_response (clean_response "Here is Here is x".toList)
      ≠ clean_response "Here is Here is x".toList := by decide

/-- C3 (amended): `clean("") = ""`, and the cleaner is idempotent on every
input whose cleaned form contains no `<` character and does not itself begin
with a filler phrase; full idempotence fails (see the counterexample). -/
theorem c3_clean_idempotent_on_stable :
    clean_response [] = []
    ∧ ∀ x : List Char,
        (clean_response x).all (fun c => !(c = '<')) = true →
        fillerMatch (clean_response x) = none →
        clean_response (clean_response x) = clean_response x := by
  constructor
  · rfl
  · intro x h1 h2
    by_cases hy : clean_response x = []
    · rw [hy]
      rfl
    · rw [clean_response_eq (clean_response x),
        if_neg (by simpa [List.isEmpty_iff] using hy)]
      rw [removeBlock_id (by rfl) h1, removeBlock_id (by rfl) h1,
        removeTags_id h1, removeFiller_id h2]
      have hxne : x.isEmpty = false := by
        cases hxx : x.isEmpty
        · rfl
        · exfalso
          have e1 : clean_response x = x := by
            rw [clean_response_eq x, if_pos hxx]
          exact hy (e1.trans (List.isEmpty_iff.mp hxx))
      have hyform : clean_response x
          = capFirst (stripPy (collapseWs (removeFiller (removeTags
              (removeBlock tagReasonOpen tagReasonClose
                (removeBlock tagThinkOpen tagThinkClose x)))))) := by
        rw [clean_response_eq x, hxne]
        simp
      have key : ∀ t4 : List Char,
          clean_response x = capFirst (stripPy (collapseWs t4)) →
          capFirst (stripPy (collapseWs (clean_response x))) = clean_response x := by
        intro t4 hform
        have hws := wsOk_stripPy (wsOk_collapseGo false t4)
        have hnd := noDouble_stripPy (noDouble_collapseGo false t4)
        have hhead := headNotWs_stripPy (collapseWs t4)
        have hlast := lastNotWs_stripPy (collapseWs t4)
        have hws2 : wsOkB (clean_response x) = true := by
          rw [hform]; exact wsOk_capFirst hws
        have hnd2 : noDouble (clean_response x) = true := by
          rw [hform]; exact noDouble_capFirst hnd
        have hh2 : headNotWs (clean_response x) = true := by
          rw [hform]; exact headNotWs_capFirst hhead
        have hl2 : lastNotWs (clean_response x) = true := by
          rw [hform]; exact lastNotWs_capFirst hlast
        have e1 : collapseWs (clean_response x) = clean_response x :=
          collapse_id hws2 hnd2
        rw [e1, strip_id hh2 hl2, hform, capFirst_idem]
      exact key _ hyform

/-- Witness for the amended C3 theorem at the concrete input `"hello"`. -/
theorem c3_clean_idempotent_on_stable_witness :
    clean_response (clean_response "hello".toList) = clean_response "hello".toList :=
  c3_clean_idempotent_on_stable.2 "hello".toList (by decide) (by decide)

/-! ## Case-insensitive matching of the filler alternatives -/

/-- Pointwise case-insensitive equality of strings. -/
def ciEqL : List Char → List Char → Bool
  | [], [] => true
  | [], _ :: _ => false
  | _ :: _, [] => false
  | a :: xs, b :: ys => ciEq a b && ciEqL xs ys

theorem ciEq_refl (c : Char) : ciEq c c = true := by
  unfold ciEq
  simp

theorem ciEqL_refl (l : List Char) : ciEqL l l = true := by
  induction l with
  | nil => rfl
  | cons c r ih =>
    unfold ciEqL
    rw [ciEq_refl, ih]
    rfl

theorem ciEqL_length : ∀ {q p : List Char}, ciEqL q p = true → q.length = p.length := by
  intro q
  induction q with
  | nil =>
    intro p h
    cases p with
    | nil => rfl
    | cons b ys => simp [ciEqL] at h
  | cons a xs ih =>
    intro p h
    cases p with
    | nil => simp [ciEqL] at h
    | cons b ys =>
      unfold ciEqL at h
      rw [Bool.and_eq_true] at h
      simp [ih h.2]

theorem ciEqL_append {q p : List Char} (h : ciEqL q p = true) (r : List Char) :
    ciEqL (q ++ r) (p ++ r) = true := by
  induction q generalizing p with
  | nil =>
    cases p with
    | nil => simpa using ciEqL_refl r
    | cons b ys => simp [ciEqL] at h
  | cons a xs ih =>
    cases p with
    | nil => simp [ciEqL] at h
    | cons b ys =>
      unfold ciEqL at h
      rw [Bool.and_eq_true] at h
      rw [List.cons_append, List.cons_append]
      unfold ciEqL
      rw [h.1, ih h.2]
      rfl

theorem isPrefCI_congr {pat : List Char} :
    ∀ {l l' : List Char}, ciEqL l l' = true → isPrefCI pat l = isPrefCI pat l' := by
  induction pat with
  | nil => intro l l' _; rfl
  | cons p ps ih =>
    intro l l' h
    cases l with
    | nil =>
      cases l' with
      | nil => rfl
      | cons b ys => simp [ciEqL] at h
    | cons a xs =>
      cases l' with
      | nil => simp [ciEqL] at h
      | cons b ys =>
        unfold ciEqL at h
        rw [Bool.and_eq_true] at h
        have hab : toLowerA a = toLowerA b := by
          have := h.1
          unfold ciEq at this
          simpa using this
        unfold isPrefCI
        unfold ciEq
        rw [hab, ih h.2]

theorem isPrefCI_self_append : ∀ (p r : List Char), isPrefCI p (p ++ r) = true := by
  intro p r
  induction p with
  | nil => rfl
  | cons c ps ih =>
    rw [List.cons_append]
    unfold isPrefCI
    rw [ciEq_refl, ih]
    rfl

/-- Any casing of one of the six filler alternatives, followed by anything,
is matched by `fillerMatch`, which consumes exactly the phrase. -/
theorem fillerMatch_ci {p q : List Char} (rest : List Char)
    (hp : p = phHereIs ∨ p = phHereAre ∨ p = phHereRsqS ∨ p = phBasedOn
      ∨ p = phTheAnswerIs ∨ p = phInSummary)
    (hq : ciEqL q p = true) :
    fillerMatch (q ++ rest) = some rest := by
  have hc := ciEqL_append hq rest
  have hlen := ciEqL_length hq
  rcases hp with rfl | rfl | rfl | rfl | rfl | rfl
  · have h1 : isPrefCI phHereIs (q ++ rest) = true := by
      rw [isPrefCI_congr hc]
      exact isPrefCI_self_append _ _
    unfold fillerMatch
    rw [h1]
    simp only [if_true]
    rw [List.drop_left' hlen]
  · have h1 : isPrefCI phHereIs (q ++ rest) = false := by
      rw [isPrefCI_congr hc]
      rfl
    have h2 : isPrefCI phHereAre (q ++ rest) = true := by
      rw [isPrefCI_congr hc]
      exact isPrefCI_self_append _ _
    unfold fillerMatch
    rw [h1, h2]
    simp only [Bool.false_eq_true, if_false, if_true]
    rw [List.drop_left' hlen]
  · have h1 : isPrefCI phHereIs (q ++ rest) = false := by
      rw [isPrefCI_congr hc]
      rfl
    have h2 : isPrefCI phHereAre (q ++ rest) = false := by
      rw [isPrefCI_congr hc]
      rfl
    have h3 : isPrefCI phHereRsqS (q ++ rest) = true := by
      rw [isPrefCI_congr hc]
      exact isPrefCI_self_append _ _
    unfold fillerMatch
    rw [h1, h2, h3]
    simp only [Bool.false_eq_true, if_false, if_true]
    rw [List.drop_left' hlen]
  · have h1 : isPrefCI phHereIs (q ++ rest) = false := by
      rw [isPrefCI_congr hc]
      rfl
    have h2 : isPrefCI phHereAre (q ++ rest) = false := by
      rw [isPrefCI_congr hc]
      rfl
    have h3 : isPrefCI phHereRsqS (q ++ rest) = false := by
      rw [isPrefCI_congr hc]
      rfl
    have h4 : isPrefCI phBasedOn (q ++ rest) = true := by
      rw [isPrefCI_congr hc]
      exact isPrefCI_self_append _ _
    unfold fillerMatch
    rw [h1, h2, h3, h4]
    simp only [Bool.false_eq_true, if_false, if_true]
    rw [List.drop_left' hlen]
  · have h1 : isPrefCI phHereIs (q ++ rest) = false := by
      rw [isPrefCI_congr hc]
      rfl
    have h2 : isPrefCI phHereAre (q ++ rest) = false := by
      rw [isPrefCI_congr hc]
      rfl
    have h3 : isPrefCI phHereRsqS (q ++ rest) = false := by
      rw [isPrefCI_congr hc]
      rfl
    have h4 : isPrefCI phBasedOn (q ++ rest) = false := by
      rw [isPrefCI_congr hc]
      rfl
    have h5 : isPrefCI phTheAnswerIs (q ++ rest) = true := by
      rw [isPrefCI_congr hc]
      exact isPrefCI_self_append _ _
    unfold fillerMatch
    rw [h1, h2, h3, h4, h5]
    simp only [Bool.false_eq_true, if_false, if_true]
    rw [List.drop_left' hlen]
  · have h1 : isPrefCI phHereIs (q ++ rest) = false := by
      rw [isPrefCI_congr hc]
      rfl
    have h2 : isPrefCI phHereAre (q ++ rest) = false := by
      rw [isPrefCI_congr hc]
      rfl
    have h3 : isPrefCI phHereRsqS (q ++ rest) = false := by
      rw [isPrefCI_congr hc]
      rfl
    have h4 : isPrefCI phBasedOn (q ++ rest) = false := by
      rw [isPrefCI_congr hc]
      rfl
    have h5 : isPrefCI phTheAnswerIs (q ++ rest) = false := by
      rw [isPrefCI_congr hc]
      rfl
    have h6 : isPrefCI phInSummary (q ++ rest) = true := by
      rw [isPrefCI_congr hc]
      exact isPrefCI_self_append _ _
    unfold fillerMatch
    rw [h1, h2, h3, h4, h5, h6]
    simp only [Bool.false_eq_true, if_false, if_true]
    rw [List.drop_left' hlen]

/-- C7 (corrected, counterexample): a leading `Here's` written with the ASCII
apostrophe U+0027 is not stripped by the cleaner — the source's pattern spells
the phrase with the right single quotation mark U+2019 only, and that variant
is stripped. -/
theorem c7_ascii_apostrophe_not_stripped :
    clean_response ("Here".toList ++ [apos] ++ "s x".toList)
      = "Here".toList ++ [apos] ++ "s x".toList
    ∧ clean_response ("Here".toList ++ [rsq] ++ "s x".toList) = "X".toList := by
  constructor <;> decide

/-- C7 (amended): for every string beginning, in any casing, with one of the
six filler phrases — where the `Here's` alternative is spelled with U+2019 —
the filler pass removes exactly that leading phrase together with all
following colons and whitespace.  The ASCII-apostrophe spelling of `Here's`
is not one of the phrases (see the counterexample). -/
theorem c7_filler_phrase_stripped (p q rest : List Char)
    (hp : p = phHereIs ∨ p = phHereAre ∨ p = phHereRsqS ∨ p = phBasedOn
      ∨ p = phTheAnswerIs ∨ p = phInSummary)
    (hq : ciEqL q p = true) :
    removeFiller (q ++ rest) = rest.dropWhile isColonOrWs := by
  unfold removeFiller
  rw [fillerMatch_ci rest hp hq]

/-- Witness for the amended C7 theorem: `"based ON: yes"` loses the phrase,
the colon and the space. -/
theorem c7_filler_phrase_stripped_witness :
    removeFiller ("based ON".toList ++ ": yes".toList)
      = (": yes".toList).dropWhile isColonOrWs :=
  c7_filler_phrase_stripped phBasedOn "based ON".toList (": yes".toList)
    (Or.inr (Or.inr (Or.inr (Or.inl rfl)))) (by decide)

/-! ## Claim theorems about the service -/

/-- A trivial model stub and extractor for closed statements. -/
def stub0 : Stub := fun _ _ => Except.ok []

def ext0 : Extractor := fun _ => Except.ok []

/-- C1 (code bug): with all three grading fields non-empty, the feedback path
raises `AttributeError` — src/EduPal.py:268 calls `provide_feedback` while the
handler class defines `handle_feedback` — so the router returns a 500
internal-error envelope and the model is never invoked, instead of the
success envelope with the cleaned stub text.  With a blank field the 400
validation envelope is returned, also without invoking the model. -/
theorem c1_feedback_path_raises (stub : Stub) (ext : Extractor) :
    process_request stub ext
        { action := "feedback".toList, text := "doc".toList, question := "Q".toList,
          user_answer := "B".toList, correct_answer := "B".toList }
      = (build_error_response ("Internal server error: ".toList ++ attrErrorMsg) 500, 0)
    ∧ process_request stub ext
        { action := "feedback".toList, text := "doc".toList, question := [],
          user_answer := "B".toList, correct_answer := "B".toList }
      = (build_error_response missingFieldsMsg, 0) := by
  constructor <;> rfl

/-- C2 (code bug): on the well-formed three-question block the parser returns
a single entry `Q1` holding the whole text — the scan compares each line
against the current index, which never advances past 1 because the first
matching line only opens the block — instead of the three separate entries
the claim describes.  On input with no numbered lines it returns the empty
map. -/
theorem c2_quiz_parse_collapses_blocks :
    parse_quiz_questions "1. Q one\nA) x\n2. Q two\nA) y\n3. Q three\nA) z".toList
      = [("Q1".toList, "1. Q one A) x 2. Q two A) y 3. Q three A) z".toList)]
    ∧ parse_quiz_questions "hello\nworld".toList = [] := by
  constructor <;> decide

def c4Text : List Char := "Photosynthesis converts light into chemical energy.".toList

def c4StubText : List Char :=
  "<thinking>ignore</thinking>here is a summary: plants use light.".toList

def c4Stub : Stub := fun _ _ => Except.ok c4StubText

/-- C4 (confirmed): the summarize round trip returns the 200 success envelope
carrying action `summarize` and the raw stub text, invoking the model once;
cleaning that text yields exactly `"A summary: plants use light."`. -/
theorem c4_summarize_round_trip (ext : Extractor) :
    process_request c4Stub ext { action := "summarize".toList, text := c4Text }
      = (build_success_response c4StubText "summarize".toList, 1)
    ∧ clean_response c4StubText = "A summary: plants use light.".toList := by
  constructor
  · rfl
  · decide

theorem startsWithPlain_take (l : List Char) (n : Nat) :
    startsWithPlain (l.take n) l = true := by
  induction l generalizing n with
  | nil => cases n <;> rfl
  | cons c r ih =>
    cases n with
    | zero => rfl
    | succ m =>
      rw [List.take_succ_cons]
      unfold startsWithPlain
      rw [ih m]
      simp

/-- C5 (confirmed): the router truncates the supplied text to its first 5000
characters before anything else — its behaviour only depends on that prefix —
and for the summarize action the prompt handed to the model embeds exactly
the truncated text.  Short text passes through whole; longer text is cut to
length 5000, and the truncation is a prefix of the original. -/
theorem c5_truncation_before_prompts (body : Request) (stub : Stub) (a : List Char) :
    handle_ai_actions stub a body
      = handle_ai_actions stub a { body with text := body.text.take 5000 }
    ∧ (body.text.length ≤ 5000 → body.text.take 5000 = body.text)
    ∧ (5000 ≤ body.text.length → (body.text.take 5000).length = 5000)
    ∧ startsWithPlain (body.text.take 5000) body.text = true
    ∧ ((stripPy (body.text.take 5000)).isEmpty = false →
        handle_ai_actions stub "summarize".toList body
          = (match invoke_model stub [userMsg (summary_prompt (body.text.take 5000))] 400 with
             | (Except.ok r, n) => (Except.ok (build_success_response r "summarize".toList), n)
             | (Except.error e, n) => (Except.error e, n))) := by
  refine ⟨?_, ?_, ?_, ?_, ?_⟩
  · simp only [handle_ai_actions, List.take_take, Nat.min_self]
  · intro h
    exact List.take_of_length_le h
  · intro h
    rw [List.length_take]
    omega
  · exact startsWithPlain_take _ _
  · intro h
    simp only [handle_ai_actions, h]
    rw [if_neg (by decide)]
    simp only [if_true]
    rfl

/-- Witness for C5 at short text `"abc"` and at 6000 copies of `'a'`. -/
theorem c5_truncation_before_prompts_witness :
    "abc".toList.take 5000 = "abc".toList
    ∧ ((List.replicate 6000 'a').take 5000).length = 5000 := by
  constructor
  · exact (c5_truncation_before_prompts { text := "abc".toList } stub0 []).2.1 (by decide)
  · exact (c5_truncation_before_prompts { text := List.replicate 6000 'a' } stub0 []).2.2.1
      (by rw [List.length_replicate]; omega)

theorem handle_ai_actions_action_field_irrel (stub : Stub) (a x : List Char)
    (body : Request) :
    handle_ai_actions stub a { body with action := x } = handle_ai_actions stub a body := rfl

theorem handle_pdf_action_field_irrel (ext : Extractor) (x : List Char) (body : Request) :
    handle_pdf_processing ext { body with action := x } = handle_pdf_processing ext body := rfl

/-- C9 (confirmed): dispatch is case-insensitive — the router lowercases the
action before matching, so a request whose action differs only in letter case
produces exactly the same result as its lowercase form. -/
theorem c9_dispatch_case_insensitive (body : Request) (stub : Stub) (ext : Extractor) :
    process_request stub ext body
      = process_request stub ext { body with action := lowerStr body.action } := by
  simp only [process_request, handle_ai_actions_action_field_irrel,
    handle_pdf_action_field_irrel, lowerStr_idem]

theorem handle_ai_blank_text (stub : Stub) (a : List Char) (body : Request)
    (h : (stripPy (body.text.take 5000)).isEmpty = true) :
    handle_ai_actions stub a body
      = (Except.ok (build_error_response "No text content provided".toList), 0) := by
  simp only [handle_ai_actions, h]
  simp

theorem process_request_ai_route (stub : Stub) (ext : Extractor) (body : Request)
    (act : List Char) (hact : lowerStr body.action = act)
    (hmem : act = "qa".toList ∨ act = "summarize".toList
      ∨ act = "quiz".toList ∨ act = "feedback".toList)
    (hpdf : ¬ act = "process_pdf".toList) :
    process_request stub ext body
      = (match handle_ai_actions stub act body with
         | (Except.ok env, n) => (env, n)
         | (Except.error e, n) =>
           (build_error_response ("Internal server error: ".toList ++ e) 500, n)) := by
  simp only [process_request, hact]
  rw [if_neg hpdf, if_pos hmem]

/-- C10 (confirmed): the 5000-character truncation happens before the
emptiness check — whenever the first 5000 characters of the text are all
whitespace the router answers with the empty-input validation envelope and
zero model calls, even if non-whitespace characters follow position 5000. -/
theorem c10_truncation_before_blank_check (body : Request) (stub : Stub) (ext : Extractor)
    (hblank : (stripPy (body.text.take 5000)).isEmpty = true)
    (ha : body.action = "qa".toList ∨ body.action = "summarize".toList
      ∨ body.action = "quiz".toList ∨ body.action = "feedback".toList) :
    process_request stub ext body
      = (build_error_response "No text content provided".toList, 0) := by
  have route : ∀ act : List Char, body.action = act →
      lowerStr act = act → act ≠ "process_pdf".toList →
      (act = "qa".toList ∨ act = "summarize".toList
        ∨ act = "quiz".toList ∨ act = "feedback".toList) →
      process_request stub ext body
        = (build_error_response "No text content provided".toList, 0) := by
    intro act heq hlow hpdf hmem
    rw [process_request_ai_route stub ext body act (by rw [heq, hlow]) hmem hpdf]
    rw [handle_ai_blank_text stub act body hblank]
  rcases ha with h | h | h | h
  · exact route _ h (by decide) (by decide) (Or.inl rfl)
  · exact route _ h (by decide) (by decide) (Or.inr (Or.inl rfl))
  · exact route _ h (by decide) (by decide) (Or.inr (Or.inr (Or.inl rfl)))
  · exact route _ h (by decide) (by decide) (Or.inr (Or.inr (Or.inr rfl)))

/-- Witness for C10: 5000 spaces followed by an `'x'` at position 5000 still
yields the empty-input validation envelope with zero model calls. -/
theorem c10_truncation_before_blank_check_witness :
    process_request stub0 ext0
        { action := "summarize".toList, text := List.replicate 5000 ' ' ++ ['x'] }
      = (build_error_response "No text content provided".toList, 0) := by
  apply c10_truncation_before_blank_check
  · show (stripPy ((List.replicate 5000 ' ' ++ ['x']).take 5000)).isEmpty = true
    have h1 : (List.replicate 5000 ' ' ++ ['x']).take 5000 = List.replicate 5000 ' ' :=
      List.take_left' (by rw [List.length_replicate])
    rw [h1]
    have h2 : (List.replicate 5000 ' ').dropWhile isSpacePy = [] := by
      rw [List.dropWhile_replicate]
      simp [isSpacePy]
    unfold stripPy
    rw [h2]
    rfl
  · exact Or.inr (Or.inl rfl)

def c6Stub : Stub := fun _ _ => Except.ok "ans".toList

/-- C6 (corrected, counterexample): a whitespace-only question (`" "`) for
the qa action passes the question check (`if not question:` only catches the
empty string), so the model is invoked — call count 1 — and a success
envelope is returned, contradicting the claim that whitespace-only required
text always yields a validation error with zero model calls. -/
theorem c6_whitespace_question_reaches_model :
    process_request c6Stub ext0
        { action := "qa".toList, text := "doc".toList, input := " ".toList }
      = (build_success_response "ans".toList "qa".toList, 1) := by rfl

/-- C6 (amended): blank or whitespace-only document text yields the 400
empty-input envelope with zero model calls for all four AI actions; an empty
question for qa, or an empty grading field for feedback, likewise yields a
400 validation envelope with zero calls.  A merely whitespace-only question
or grading field, however, passes validation (see the counterexample). -/
theorem c6_blank_input_validation (body : Request) (stub : Stub) (ext : Extractor) :
    ((stripPy (body.text.take 5000)).isEmpty = true →
      (body.action = "qa".toList ∨ body.action = "summarize".toList
        ∨ body.action = "quiz".toList ∨ body.action = "feedback".toList) →
      process_request stub ext body
        = (build_error_response "No text content provided".toList, 0))
    ∧ (body.action = "qa".toList → (stripPy (body.text.take 5000)).isEmpty = false →
        body.input = [] →
        process_request stub ext body
          = (build_error_response "No question provided".toList, 0))
    ∧ (body.action = "feedback".toList → (stripPy (body.text.take 5000)).isEmpty = false →
        (body.question = [] ∨ body.user_answer = [] ∨ body.correct_answer = []) →
        process_request stub ext body
          = (build_error_response missingFieldsMsg, 0)) := by
  refine ⟨?_, ?_, ?_⟩
  · intro hblank ha
    have route : ∀ act : List Char, body.action = act →
        lowerStr act = act → act ≠ "process_pdf".toList →
        (act = "qa".toList ∨ act = "summarize".toList
          ∨ act = "quiz".toList ∨ act = "feedback".toList) →
        process_request stub ext body
          = (build_error_response "No text content provided".toList, 0) := by
      intro act heq hlow hpdf hmem
      rw [process_request_ai_route stub ext body act (by rw [heq, hlow]) hmem hpdf]
      rw [handle_ai_blank_text stub act body hblank]
    rcases ha with h | h | h | h
    · exact route _ h (by decide) (by decide) (Or.inl rfl)
    · exact route _ h (by decide) (by decide) (Or.inr (Or.inl rfl))
    · exact route _ h (by decide) (by decide) (Or.inr (Or.inr (Or.inl rfl)))
    · exact route _ h (by decide) (by decide) (Or.inr (Or.inr (Or.inr rfl)))
  · intro ha hnb hin
    have hq : handle_ai_actions stub "qa".toList body
        = (Except.ok (build_error_response "No question provided".toList), 0) := by
      simp only [handle_ai_actions, hnb, Bool.false_eq_true, if_false, if_true]
      rw [hin]
      simp
    rw [process_request_ai_route stub ext body "qa".toList (by rw [ha]; decide)
      (Or.inl rfl) (by decide), hq]
  · intro ha hnb hmiss
    have hf : handle_ai_actions stub "feedback".toList body
        = (Except.ok (build_error_response missingFieldsMsg), 0) := by
      simp only [handle_ai_actions, hnb, Bool.false_eq_true, if_false, if_true]
      have hcond : (body.question.isEmpty || body.user_answer.isEmpty
          || body.correct_answer.isEmpty) = true := by
        rcases hmiss with h | h | h <;> simp [h]
      rw [hcond]
      simp
    rw [process_request_ai_route stub ext body "feedback".toList (by rw [ha]; decide)
      (Or.inr (Or.inr (Or.inr rfl))) (by decide), hf]

/-- Witness for the amended C6 theorem: whitespace-only text for the quiz
action. -/
theorem c6_blank_input_validation_witness :
    process_request stub0 ext0 { action := "quiz".toList, text := "   ".toList }
      = (build_error_response "No text content provided".toList, 0) :=
  (c6_blank_input_validation { action := "quiz".toList, text := "   ".toList }
      stub0 ext0).1 (by decide) (Or.inr (Or.inr (Or.inl rfl)))

/-! ## C8: the envelope is always structured -/

/-- The well-formedness contract of an envelope. -/
def EnvelopeWF (e : Envelope) : Prop :=
  (e.statusCode = 200 ∨ e.statusCode = 400 ∨ e.statusCode = 500)
  ∧ (e.success = true ↔ e.statusCode = 200)
  ∧ (e.success = true → e.action.isSome = true ∧ e.response.isSome = true ∧ e.error = none)
  ∧ (e.success = false → e.error.isSome = true ∧ e.action = none ∧ e.response = none)

theorem wf_success (d a : List Char) : EnvelopeWF (build_success_response d a) := by
  unfold EnvelopeWF build_success_response
  refine ⟨Or.inl rfl, by simp, ?_, ?_⟩ <;> simp

theorem wf_error (m : List Char) (s : Nat) (hs : s = 400 ∨ s = 500) :
    EnvelopeWF (build_error_response m s) := by
  unfold EnvelopeWF build_error_response
  rcases hs with rfl | rfl <;> refine ⟨by simp, by simp, ?_, ?_⟩ <;> simp

theorem handle_pdf_shape (ext : Extractor) (body : Request) :
    (∃ d a, handle_pdf_processing ext body = Except.ok (build_success_response d a))
    ∨ (∃ m, handle_pdf_processing ext body = Except.ok (build_error_response m))
    ∨ (∃ e, handle_pdf_processing ext body = Except.error e) := by
  unfold handle_pdf_processing
  by_cases h : body.pdf_data.isEmpty = true
  · right; left
    refine ⟨"No PDF data provided".toList, ?_⟩
    rw [if_pos h]
  · rw [Bool.not_eq_true] at h
    simp only [h, Bool.false_eq_true, if_false]
    cases ext body.pdf_data with
    | ok t => left; exact ⟨t, _, rfl⟩
    | error e => right; right; exact ⟨e, rfl⟩

theorem handle_ai_qa_eq (stub : Stub) (body : Request)
    (hnb : (stripPy (body.text.take 5000)).isEmpty = false)
    (hin : body.input.isEmpty = false) :
    handle_ai_actions stub "qa".toList body
      = (match stub [userMsg (qa_prompt (body.text.take 5000) body.input)] 300 with
         | Except.ok r => (Except.ok (build_success_response r "qa".toList), 1)
         | Except.error e =>
           (Except.error ("AI model invocation failed: ".toList ++ e), 1)) := by
  simp only [handle_ai_actions, hnb, hin, Bool.false_eq_true, if_false, if_true]
  unfold handle_question_answer invoke_model
  cases stub [userMsg (qa_prompt (body.text.take 5000) body.input)] 300 <;> rfl

theorem handle_ai_summarize_eq (stub : Stub) (body : Request)
    (hnb : (stripPy (body.text.take 5000)).isEmpty = false) :
    handle_ai_actions stub "summarize".toList body
      = (match stub [userMsg (summary_prompt (body.text.take 5000))] 400 with
         | Except.ok r => (Except.ok (build_success_response r "summarize".toList), 1)
         | Except.error e =>
           (Except.error ("AI model invocation failed: ".toList ++ e), 1)) := by
  simp only [handle_ai_actions, hnb, Bool.false_eq_true, if_false]
  rw [if_neg (by decide)]
  simp only [if_true]
  unfold generate_summary invoke_model
  cases stub [userMsg (summary_prompt (body.text.take 5000))] 400 <;> rfl

theorem handle_ai_quiz_eq (stub : Stub) (body : Request)
    (hnb : (stripPy (body.text.take 5000)).isEmpty = false) :
    handle_ai_actions stub "quiz".toList body
      = (match stub [userMsg (quiz_prompt (body.text.take 5000))] 600 with
         | Except.ok r => (Except.ok (build_success_response r "quiz".toList), 1)
         | Except.error e =>
           (Except.error ("AI model invocation failed: ".toList ++ e), 1)) := by
  simp only [handle_ai_actions, hnb, Bool.false_eq_true, if_false]
  rw [if_neg (by decide), if_neg (by decide)]
  simp only [if_true]
  unfold generate_quiz invoke_model
  cases stub [userMsg (quiz_prompt (body.text.take 5000))] 600 <;> rfl

theorem handle_ai_shape (stub : Stub) (a : List Char) (body : Request) :
    (∃ d, handle_ai_actions stub a body = (Except.ok (build_success_response d a), 1))
    ∨ (∃ m, handle_ai_actions stub a body = (Except.ok (build_error_response m), 0))
    ∨ (∃ e n, handle_ai_actions stub a body = (Except.error e, n)) := by
  by_cases hblank : (stripPy (body.text.take 5000)).isEmpty = true
  · right; left
    exact ⟨_, handle_ai_blank_text stub a body hblank⟩
  · rw [Bool.not_eq_true] at hblank
    by_cases h1 : a = "qa".toList
    · subst h1
      by_cases hin : body.input.isEmpty = true
      · right; left
        refine ⟨"No question provided".toList, ?_⟩
        simp only [handle_ai_actions, hblank, hin, Bool.false_eq_true, if_false, if_true]
      · rw [Bool.not_eq_true] at hin
        rw [handle_ai_qa_eq stub body hblank hin]
        cases stub [userMsg (qa_prompt (body.text.take 5000) body.input)] 300 with
        | ok r => left; exact ⟨r, rfl⟩
        | error e => right; right; exact ⟨_, _, rfl⟩
    · by_cases h2 : a = "summarize".toList
      · subst h2
        rw [handle_ai_summarize_eq stub body hblank]
        cases stub [userMsg (summary_prompt (body.text.take 5000))] 400 with
        | ok r => left; exact ⟨r, rfl⟩
        | error e => right; right; exact ⟨_, _, rfl⟩
      · by_cases h3 : a = "quiz".toList
        · subst h3
          rw [handle_ai_quiz_eq stub body hblank]
          cases stub [userMsg (quiz_prompt (body.text.take 5000))] 600 with
          | ok r => left; exact ⟨r, rfl⟩
          | error e => right; right; exact ⟨_, _, rfl⟩
        · by_cases h4 : a = "feedback".toList
          · subst h4
            by_cases hmiss : (body.question.isEmpty || body.user_answer.isEmpty
                || body.correct_answer.isEmpty) = true
            · right; left
              refine ⟨missingFieldsMsg, ?_⟩
              simp only [handle_ai_actions, hblank, hmiss, Bool.false_eq_true, if_false, if_true]
              rw [if_neg h1, if_neg h2, if_neg h3]
            · rw [Bool.not_eq_true] at hmiss
              right; right
              refine ⟨attrErrorMsg, 0, ?_⟩
              simp only [handle_ai_actions, hblank, hmiss, Bool.false_eq_true, if_false, if_true]
              rw [if_neg h1, if_neg h2, if_neg h3]
          · right; right
            refine ⟨unboundResultMsg, 0, ?_⟩
            simp only [handle_ai_actions, hblank, Bool.false_eq_true, if_false]
            rw [if_neg h1, if_neg h2, if_neg h3, if_neg h4]

/-- C8 (corrected, counterexample): the error envelope produced for an
unknown action has no action field — `build_error_response` writes only the
success flag, the error message and a timestamp — so the claim that every
envelope, error envelopes included, carries the action name fails. -/
theorem c8_error_envelope_lacks_action :
    (process_request stub0 ext0 { action := "nope".toList }).1.success = false
    ∧ (process_request stub0 ext0 { action := "nope".toList }).1.action = none := by
  constructor <;> rfl

/-- C8 (amended): every request yields a structured envelope — status 200,
400 or 500, success exactly on status 200, an action name and response
present on success envelopes, and an error message but no action or response
field on error envelopes — and no exception escapes the router. -/
theorem c8_envelope_always_structured (body : Request) (stub : Stub) (ext : Extractor) :
    EnvelopeWF (process_request stub ext body).1 := by
  by_cases hpdf : lowerStr body.action = "process_pdf".toList
  · have hroute : process_request stub ext body
        = (match handle_pdf_processing ext body with
           | Except.ok env => (env, 0)
           | Except.error e =>
             (build_error_response ("Internal server error: ".toList ++ e) 500, 0)) := by
      simp only [process_request, hpdf]
      simp only [if_true]
    rw [hroute]
    rcases handle_pdf_shape ext body with ⟨d, a, h⟩ | ⟨m, h⟩ | ⟨e, h⟩ <;> rw [h]
    · exact wf_success d a
    · exact wf_error m 400 (Or.inl rfl)
    · exact wf_error _ 500 (Or.inr rfl)
  · by_cases hai : lowerStr body.action = "qa".toList
        ∨ lowerStr body.action = "summarize".toList
        ∨ lowerStr body.action = "quiz".toList
        ∨ lowerStr body.action = "feedback".toList
    · rw [process_request_ai_route stub ext body (lowerStr body.action) rfl hai hpdf]
      rcases handle_ai_shape stub (lowerStr body.action) body with
        ⟨d, h⟩ | ⟨m, h⟩ | ⟨e, n, h⟩ <;> rw [h]
      · exact wf_success _ _
      · exact wf_error m 400 (Or.inl rfl)
      · exact wf_error _ 500 (Or.inr rfl)
    · have hroute : process_request stub ext body
          = (build_error_response (invalid_action_msg (lowerStr body.action)), 0) := by
        simp only [process_request]
        rw [if_neg hpdf, if_neg hai]
      rw [hroute]
      exact wf_error _ 400 (Or.inl rfl)

/-- Witness for the amended C8 theorem at a concrete invalid-action request. -/
theorem c8_envelope_always_structured_witness :
    EnvelopeWF (process_request stub0 ext0 { action := "nope".toList }).1 :=
  c8_envelope_always_structured { action := "nope".toList } stub0 ext0
